import Mathlib

/-
  Verification development for SessionAsyncPackageInformation.cpp
  (asynchronous package-information refresh engine).

  The definitions below are a shallow embedding of
  src/src/cpp/session/modules/SessionAsyncPackageInformation.cpp.
  External collaborators that are not part of sources of this repository
  (the JSON library, RSourceIndex, boost string splitting) are modelled
  from the specification and marked as such in their doc comments.
-/

/-- A JSON value, as produced by the external JSON library.  The object
case keeps its members as an association list in the order the decoded
object presents them. -/
inductive JVal where
  | jnull : JVal
  | jbool : Bool → JVal
  | jint : Int → JVal
  | jstr : String → JVal
  | jarr : List JVal → JVal
  | jobj : List (String × JVal) → JVal

/-- One formal parameter of a function (core::r_util::FormalInformation). -/
structure FormalInformation where
  name : String
  isUsed : Bool
  hasDefaultValue : Bool
  missingnessHandled : Bool

/-- Metadata for one function of a package
(core::r_util::FunctionInformation). -/
structure FunctionInformation where
  name : String
  packageName : String
  performsNse : Bool
  isPrimitive : Bool
  formals : List FormalInformation

/-- Metadata for one package (core::r_util::PackageInformation). -/
structure PackageInformation where
  package : String
  exports : List String
  types : List Int
  functionInfo : List (String × FunctionInformation)

/-- The default-constructed PackageInformation() value: all fields empty. -/
def emptyPackageInformation : PackageInformation :=
  { package := "", exports := [], types := [], functionInfo := [] }

/-- The empty placeholder entry the finalizer produces for a package name:
package name set, all collections empty. -/
def emptyPkgInfo (p : String) : PackageInformation :=
  { package := p, exports := [], types := [], functionInfo := [] }

abbrev FnMap := List (String × FunctionInformation)

abbrev Index := List (String × PackageInformation)

abbrev Log := List String

/-- Look up the first member of a decoded JSON object with the given key
(keys of the object are unique, so this is the member access of the
object type of the JSON library). -/
def lookupField : List (String × JVal) → String → Option JVal
  | [], _ => none
  | (k, v) :: rest, key => if k = key then some v else lookupField rest key

/-- The membership test json::Object::count of the JSON object type. -/
def hasKey (o : List (String × JVal)) (key : String) : Bool :=
  (lookupField o key).isSome

/-- Modelled from the spec: reading one named integer field of a JSON
object with type checking; none when the field is missing or not an
integer (unreadable). -/
def readIntField (o : List (String × JVal)) (key : String) : Option Int :=
  match lookupField o key with
  | some (JVal.jint n) => some n
  | _ => none

/-- Converting the 0/1 integer flags of the protocol to a boolean. -/
def intFlag (n : Int) : Bool := n != 0

/-- Whether all three formal flag fields of the field object of a formal are
readable (json::readObject reports an error otherwise, which is logged). -/
def formalFlagsOk (fields : List (String × JVal)) : Bool :=
  (readIntField fields "is_used").isSome &&
  (readIntField fields "has_default").isSome &&
  (readIntField fields "missingness_handled").isSome

/-- Decode the field object of one formal into a FormalInformation, applying
the default policy of fillFormalInfo: isUsed defaults to 0 (false),
hasDefaultValue to 1 (true), missingnessHandled to 1 (true) when a field
is missing or unreadable. -/
def decodeFormal (nm : String) (fields : List (String × JVal)) : FormalInformation :=
  { name := nm
  , isUsed := intFlag ((readIntField fields "is_used").getD 0)
  , hasDefaultValue := intFlag ((readIntField fields "has_default").getD 1)
  , missingnessHandled := intFlag ((readIntField fields "missingness_handled").getD 1) }

/-- Log text stub for logIncompatibleTypes of the external JSON helpers
(the exact text is owned by the logging collaborator). -/
def incompatibleTypesMsg : String := "logIncompatibleTypes"

/-- Log text stub for LOG_ERROR on a json::readObject error (the exact
text is owned by the logging collaborator). -/
def readErrMsg : String := "readObject error"

/-- The warning fillFunctionInfo emits when a function has no formal_info
field, naming the function. -/
def noFormalInfoMsg (functionName : String) : String :=
  "No formal information for function \x27" ++ functionName ++ "\x27"

/-- fillFormalInfo: walk the formal_info object in decode order, appending
one decoded FormalInformation per formal to the accumulated list.  A
formal whose value is not itself an object logs the type mismatch and
returns at once, dropping that formal and every later one.  Returns the
final formal list together with the log messages emitted. -/
def fillFormalInfo : List (String × JVal) → List FormalInformation →
    (List FormalInformation × Log)
  | [], formals => (formals, [])
  | (nm, v) :: rest, formals =>
    match v with
    | JVal.jobj fields =>
      let msgs0 : Log := if formalFlagsOk fields then [] else [readErrMsg]
      let r := fillFormalInfo rest (formals ++ [decodeFormal nm fields])
      (r.1, msgs0 ++ r.2)
    | _ => (formals, [incompatibleTypesMsg])

/-- The result of fillFunctionInfo: the accumulated function map, the log
messages emitted, and the boolean the function returns. -/
structure FFRes where
  fnMap : FnMap
  msgs : Log
  ok : Bool

/-- Replace the entry with the given key, or append a new one
(the std::map insertion-or-assignment used for the function map). -/
def upsertFn : FnMap → String → FunctionInformation → FnMap
  | [], k, v => [(k, v)]
  | (k0, v0) :: rest, k, v =>
    if k0 = k then (k, v) :: rest else (k0, v0) :: upsertFn rest k v

/-- Log messages from reading performs_nse of the field object of one
function (LOG_ERROR when missing or unreadable). -/
def nseMsgs (fields : List (String × JVal)) : Log :=
  if (readIntField fields "performs_nse").isSome then [] else [readErrMsg]

/-- The FunctionInformation built for one function whose formal_info
decoded to the given formals: performs_nse defaulting to 0,
isPrimitive set false unconditionally. -/
def mkFnInfo (functionName pkgName : String) (fields : List (String × JVal))
    (formals : List FormalInformation) : FunctionInformation :=
  { name := functionName
  , packageName := pkgName
  , performsNse := intFlag ((readIntField fields "performs_nse").getD 0)
  , isPrimitive := false
  , formals := formals }

/-- fillFunctionInfo: walk the function_info object in decode order.  A
function whose value is not an object logs and is skipped.  A function
with no formal_info key logs a warning naming it and makes the whole
call return false at once, keeping only the functions inserted so far.
A formal_info of the wrong type logs and skips just that function.
Otherwise the formals of the function are decoded and the function is
inserted into the map under its name. -/
def fillFunctionInfo : List (String × JVal) → String → FnMap → FFRes
  | [], _, m => { fnMap := m, msgs := [], ok := true }
  | (fname, v) :: rest, pkg, m =>
    match v with
    | JVal.jobj fields =>
      if hasKey fields "formal_info" then
        match lookupField fields "formal_info" with
        | some (JVal.jobj fo) =>
          let fr := fillFormalInfo fo []
          let r := fillFunctionInfo rest pkg (upsertFn m fname (mkFnInfo fname pkg fields fr.1))
          { fnMap := r.fnMap, msgs := nseMsgs fields ++ fr.2 ++ r.msgs, ok := r.ok }
        | _ =>
          let r := fillFunctionInfo rest pkg m
          { fnMap := r.fnMap
          , msgs := nseMsgs fields ++ [incompatibleTypesMsg] ++ r.msgs
          , ok := r.ok }
      else
        { fnMap := m, msgs := nseMsgs fields ++ [noFormalInfoMsg fname], ok := false }
    | _ =>
      let r := fillFunctionInfo rest pkg m
      { fnMap := r.fnMap, msgs := incompatibleTypesMsg :: r.msgs, ok := r.ok }

/-- A decoded response record: the four required fields of one line. -/
structure Record where
  package : String
  exports : List JVal
  types : List JVal
  functionInfo : List (String × JVal)

/-- The four-field typed read json::readObject performs on one decoded
record: package (string), exports (array), types (array), function_info
(object); an error when any field is missing or has the wrong type. -/
def readRecord (o : List (String × JVal)) : Except Unit Record :=
  match lookupField o "package" with
  | some (JVal.jstr pkg) =>
    match lookupField o "exports" with
    | some (JVal.jarr ex) =>
      match lookupField o "types" with
      | some (JVal.jarr ty) =>
        match lookupField o "function_info" with
        | some (JVal.jobj fi) =>
          Except.ok { package := pkg, exports := ex, types := ty, functionInfo := fi }
        | _ => Except.error ()
      | _ => Except.error ()
    | _ => Except.error ()
  | _ => Except.error ()

/-- Modelled from the spec: the unguarded object accessor of the JSON library
get_obj, which fails (throws) when the value is not an object. -/
def getObj : JVal → Except Unit (List (String × JVal))
  | JVal.jobj o => Except.ok o
  | _ => Except.error ()

/-- Modelled from the spec: json::fillVectorString coerces a JSON array
to a vector of strings, filling elements until the first non-string and
then reporting failure. -/
def fillVectorString : List JVal → (List String × Bool)
  | [] => ([], true)
  | JVal.jstr s :: rest =>
    let r := fillVectorString rest
    (s :: r.1, r.2)
  | _ :: _ => ([], false)

/-- Modelled from the spec: json::fillVectorInt coerces a JSON array to a
vector of integers, filling elements until the first non-integer and
then reporting failure. -/
def fillVectorInt : List JVal → (List Int × Bool)
  | [] => ([], true)
  | JVal.jint n :: rest =>
    let r := fillVectorInt rest
    (n :: r.1, r.2)
  | _ :: _ => ([], false)

/-- Replace the index entry with the given key, or append a new one. -/
def upsertPkg : Index → String → PackageInformation → Index
  | [], k, v => [(k, v)]
  | (k0, v0) :: rest, k, v =>
    if k0 = k then (k, v) :: rest else (k0, v0) :: upsertPkg rest k v

/-- Look up the index entry for a package name. -/
def lookupPkg : Index → String → Option PackageInformation
  | [], _ => none
  | (k, v) :: rest, key => if k = key then some v else lookupPkg rest key

/-- Modelled from the spec: RSourceIndex::hasInformation, the
existence check for a package name. -/
def hasInformation (idx : Index) (p : String) : Bool :=
  (lookupPkg idx p).isSome

/-- Modelled from the spec: RSourceIndex::addPackageInformation, the
idempotent upsert of the index; it stores the information under the
package name, the stored entry carrying that name. -/
def addPackageInformation (idx : Index) (nm : String) (info : PackageInformation) : Index :=
  upsertPkg idx nm { info with package := nm }

/-- The line truncation of the parse-failure diagnostic: at most the
first 60 characters of the line, with an ellipsis marker when the line
is longer than 60 characters. -/
def truncateLine (line : String) : String :=
  if line.data.length > 60 then String.mk (line.data.take 60) ++ "..." else line

/-- The diagnostic onCompleted logs when a line fails JSON decoding. -/
def parseFailMsg (line : String) : String :=
  "Failed to parse JSON: \x27" ++ truncateLine line ++ "\x27"

/-- The message logged when the exports array fails coercion. -/
def exportsFailMsg : String := "Failed to read JSON \x27objects\x27 array to vector"

/-- The message logged when the types array fails coercion. -/
def typesFailMsg : String := "Failed to read JSON \x27types\x27 array to vector"

/-- The message logged when fillFunctionInfo reports failure. -/
def functionsFailMsg : String := "Failed to read JSON \x27functions\x27 object to map"

/-- The PackageInformation a successfully decoded record merges: exports
and types coerced (possibly to a partial prefix), function info built by
fillFunctionInfo starting from the empty map. -/
def mkPkgInfo (r : Record) : PackageInformation :=
  { package := r.package
  , exports := (fillVectorString r.exports).1
  , types := (fillVectorInt r.types).1
  , functionInfo := (fillFunctionInfo r.functionInfo r.package []).fnMap }

/-- Process one line of output, given the external JSON text decoder.
An empty line is skipped; a line that fails decoding logs the truncated
diagnostic and is skipped; a record failing the four-field read logs and
is skipped; otherwise the information of the package is merged into the
index.  The error case is the exception escaping from the unguarded
get_obj on a decoded non-object value, carrying the state at that
point. -/
def processLine (parse : String → Option JVal) (line : String)
    (idx : Index) (log : Log) : Except (Index × Log) (Index × Log) :=
  if line = "" then Except.ok (idx, log)
  else
    match parse line with
    | none => Except.ok (idx, log ++ [parseFailMsg line])
    | some value =>
      match getObj value with
      | Except.error _ => Except.error (idx, log)
      | Except.ok o =>
        match readRecord o with
        | Except.error _ => Except.ok (idx, log ++ [readErrMsg])
        | Except.ok r =>
          let ex := fillVectorString r.exports
          let logE := if ex.2 then log else log ++ [exportsFailMsg]
          let ty := fillVectorInt r.types
          let logT := if ty.2 then logE else logE ++ [typesFailMsg]
          let fr := fillFunctionInfo r.functionInfo r.package []
          let logF := logT ++ fr.msgs
          let logG := if fr.ok then logF else logF ++ [functionsFailMsg]
          Except.ok (addPackageInformation idx r.package (mkPkgInfo r), logG)

/-- The index component of a line-processing result: the state the loop
continues with, or the state at the escaping failure. -/
def lineIndex : Except (Index × Log) (Index × Log) → Index
  | Except.ok (i, _) => i
  | Except.error (i, _) => i

/-- Whether a line-processing result continued normally (no escaping
failure). -/
def lineOk : Except (Index × Log) (Index × Log) → Bool
  | Except.ok _ => true
  | Except.error _ => false

/-- Process the split output lines in order; an escaping exception stops
the remaining lines (the third component records that it escaped). -/
def processLines (parse : String → Option JVal) :
    List String → Index → Log → (Index × Log × Bool)
  | [], idx, log => (idx, log, false)
  | l :: ls, idx, log =>
    match processLine parse l idx log with
    | Except.ok (idx2, log2) => processLines parse ls idx2 log2
    | Except.error (idx2, log2) => (idx2, log2, true)

/-- Modelled from the spec: boost::split on the newline character, which
keeps empty fields (an empty input yields one empty field). -/
def splitChars : List Char → List (List Char)
  | [] => [[]]
  | c :: rest =>
    if c = '\n' then [] :: splitChars rest
    else
      match splitChars rest with
      | [] => [[c]]
      | l :: ls => (c :: l) :: ls

/-- Split the buffered output into lines on the newline character. -/
def splitLines (s : String) : List String :=
  (splitChars s.data).map (fun cs => String.mk cs)

/-- The shared state of the refresh engine: the single-flight gate
(s_isUpdating_), the pending-package snapshot (s_pkgsToUpdate_), the
package index, and the accumulated log. -/
structure PkgState where
  isUpdating : Bool
  pkgsToUpdate : List String
  index : Index
  log : Log

/-- The parsing body of onCompleted, before the finalizer: an empty
output (empty string or a single newline) produces nothing, otherwise
the split lines are processed in order.  Returns the index, the log, and
whether an exception escaped the line loop. -/
def onCompletedBody (parse : String → Option JVal) (stdOut : String)
    (idx : Index) (log : Log) : Index × Log × Bool :=
  if stdOut = "" ∨ stdOut = "\n" then (idx, log, false)
  else processLines parse (splitLines stdOut) idx log

/-- The index effect of the CompleteUpdateOnExit finalizer: walk the pending
snapshot and give an empty placeholder entry to every package the index
has no entry for. -/
def completeUpdateOnExit : List String → Index → Index
  | [], idx => idx
  | p :: rest, idx =>
    completeUpdateOnExit rest
      (if hasInformation idx p then idx
       else addPackageInformation idx p emptyPackageInformation)

/-- onCompleted: run the parsing body, then, on every exit path (the
early return on empty output and the exception escaping the line loop
included), run the CompleteUpdateOnExit finalizer: fill empty
placeholder entries, clear the pending snapshot, and release the
in-progress gate.  The exitStatus argument is accepted but never
inspected.  The boolean result records whether an exception escaped. -/
def onCompleted (parse : String → Option JVal) (_exitStatus : Int)
    (stdOut : String) (st : PkgState) : PkgState × Bool :=
  let b := onCompletedBody parse stdOut st.index st.log
  ({ isUpdating := false
   , pkgsToUpdate := []
   , index := completeUpdateOnExit st.pkgsToUpdate b.1
   , log := b.2.1 }, b.2.2)

/-- The single-quoted rendering of one package name in the synthesized
command. -/
def squote (p : String) : String := "\x27" ++ p ++ "\x27"

/-- The comma-separated tail of the argument list of the synthesized command
(the loop from the second package onward). -/
def restArgs : List String → String
  | [] => ""
  | q :: qs => "," ++ squote q ++ restArgs qs

/-- The command update() synthesizes from a non-empty pending list. -/
def buildCmd : List String → String
  | [] => ""
  | p :: rest => ".rs.getPackageInformation(" ++ squote p ++ restArgs rest ++ ");"

/-- The update() entry point, with the result of the index query for
unindexed packages passed in.  When the gate is set it returns at once
with no change and no launch; when the query is empty it releases the
gate and launches nothing; otherwise it snapshots the pending list and
launches the synthesized command (the optional second component). -/
def update (unindexed : List String) (st : PkgState) : PkgState × Option String :=
  if st.isUpdating then (st, none)
  else
    let st1 := { st with isUpdating := true, pkgsToUpdate := unindexed }
    if unindexed.isEmpty then ({ st1 with isUpdating := false }, none)
    else (st1, some (buildCmd unindexed))

/-- Whether a JSON value is an object. -/
def isObjVal : JVal → Bool
  | JVal.jobj _ => true
  | _ => false

/-- The rendering of the synthesized argument list the claim describes: each name
individually single-quoted, comma-separated, in order. -/
def quotedArgs : List String → String
  | [] => ""
  | [p] => squote p
  | p :: q :: rest => squote p ++ "," ++ quotedArgs (q :: rest)

/-- The rendering of the full synthesized command the claim describes. -/
def specCommand (pkgs : List String) : String :=
  ".rs.getPackageInformation(" ++ quotedArgs pkgs ++ ");"

/-- Looking up the upserted key yields the upserted value. -/
theorem lookupPkg_upsertPkg_self (idx : Index) (k : String) (v : PackageInformation) :
    lookupPkg (upsertPkg idx k v) k = some v := by
  induction idx with
  | nil => simp [upsertPkg, lookupPkg]
  | cons hd tl ih =>
    obtain ⟨k0, v0⟩ := hd
    by_cases hk : k0 = k
    · simp [upsertPkg, hk, lookupPkg]
    · simp [upsertPkg, hk, lookupPkg, ih]

/-- Upserting one key leaves the lookup of any other key unchanged. -/
theorem lookupPkg_upsertPkg_ne (idx : Index) (k q : String) (v : PackageInformation)
    (hne : q ≠ k) : lookupPkg (upsertPkg idx k v) q = lookupPkg idx q := by
  have hkq : ¬ (k = q) := fun h => hne h.symm
  induction idx with
  | nil => simp [upsertPkg, lookupPkg, hkq]
  | cons hd tl ih =>
    obtain ⟨k0, v0⟩ := hd
    by_cases hk : k0 = k
    · subst hk
      simp [upsertPkg, lookupPkg, hkq]
    · simp [upsertPkg, hk, lookupPkg, ih]

/-- Upserting the same key twice is the same as upserting it once with
the later value. -/
theorem upsertPkg_upsertPkg (idx : Index) (k : String) (v w : PackageInformation) :
    upsertPkg (upsertPkg idx k v) k w = upsertPkg idx k w := by
  induction idx with
  | nil => simp [upsertPkg]
  | cons hd tl ih =>
    obtain ⟨k0, v0⟩ := hd
    by_cases hk : k0 = k
    · simp [upsertPkg, hk]
    · simp [upsertPkg, hk, ih]

/-- The step the finalizer walk takes for the head of the pending list. -/
theorem completeUpdateOnExit_cons (p : String) (rest : List String) (idx : Index) :
    completeUpdateOnExit (p :: rest) idx =
    completeUpdateOnExit rest
      (if hasInformation idx p then idx
       else addPackageInformation idx p emptyPackageInformation) := rfl

/-- The finalizer walk preserves every entry already present. -/
theorem completeUpdateOnExit_preserves (pending : List String) :
    ∀ idx q v, lookupPkg idx q = some v →
    lookupPkg (completeUpdateOnExit pending idx) q = some v := by
  induction pending with
  | nil =>
    intro idx q v h
    simpa [completeUpdateOnExit] using h
  | cons p rest ih =>
    intro idx q v h
    rw [completeUpdateOnExit_cons]
    by_cases hp : hasInformation idx p = true
    · rw [if_pos hp]
      exact ih idx q v h
    · rw [if_neg hp]
      apply ih
      by_cases hq : q = p
      · subst hq
        exact absurd (by simp [hasInformation, h]) hp
      · simpa [addPackageInformation, lookupPkg_upsertPkg_ne idx p q _ hq] using h

/-- The finalizer walk preserves the existence of every entry. -/
theorem completeUpdateOnExit_has (pending : List String) (idx : Index) (q : String)
    (h : hasInformation idx q = true) :
    hasInformation (completeUpdateOnExit pending idx) q = true := by
  unfold hasInformation at h
  obtain ⟨v, hv⟩ := Option.isSome_iff_exists.mp h
  have := completeUpdateOnExit_preserves pending idx q v hv
  simp [hasInformation, this]

/-- A pending package the index has no entry for is given the empty
placeholder entry by the finalizer walk. -/
theorem completeUpdateOnExit_fills (pending : List String) :
    ∀ idx p, p ∈ pending → hasInformation idx p = false →
    lookupPkg (completeUpdateOnExit pending idx) p = some (emptyPkgInfo p) := by
  induction pending with
  | nil =>
    intro idx p hmem
    simp at hmem
  | cons a rest ih =>
    intro idx p hmem hfalse
    rw [completeUpdateOnExit_cons]
    by_cases hap : a = p
    · subst hap
      rw [if_neg (by simp [hfalse])]
      refine completeUpdateOnExit_preserves rest _ a (emptyPkgInfo a) ?_
      simpa [addPackageInformation, emptyPackageInformation, emptyPkgInfo] using
        lookupPkg_upsertPkg_self idx a (emptyPkgInfo a)
    · have hrest : p ∈ rest := by
        rcases List.mem_cons.mp hmem with h1 | h1
        · exact absurd h1.symm hap
        · exact h1
      by_cases ha : hasInformation idx a = true
      · rw [if_pos ha]
        exact ih idx p hrest hfalse
      · rw [if_neg ha]
        apply ih _ p hrest
        simpa [hasInformation, addPackageInformation,
          lookupPkg_upsertPkg_ne idx a p _ (fun h => hap h.symm)] using hfalse

/-- Every pending package has an entry after the finalizer walk. -/
theorem completeUpdateOnExit_mem_has (pending : List String) :
    ∀ idx p, p ∈ pending →
    hasInformation (completeUpdateOnExit pending idx) p = true := by
  intro idx p hmem
  by_cases h : hasInformation idx p = true
  · exact completeUpdateOnExit_has pending idx p h
  · have hfalse : hasInformation idx p = false := by
      cases hb : hasInformation idx p
      · rfl
      · exact absurd hb h
    have := completeUpdateOnExit_fills pending idx p hmem hfalse
    simp [hasInformation, this]

/-- C1: for every refresh cycle, when onCompleted returns — on every exit
path, the early return on empty output and any early exit from parsing
included — every package name in the pending snapshot for which the index
has no entry has been given an empty PackageInformation entry (package
name set, all collections empty), the pending snapshot has been cleared,
and the in-progress gate has been set back to false. -/
theorem c1_onCompleted_finalizes (parse : String → Option JVal) (e : Int)
    (out : String) (st : PkgState) :
    (onCompleted parse e out st).1.pkgsToUpdate = [] ∧
    (onCompleted parse e out st).1.isUpdating = false ∧
    (∀ p, p ∈ st.pkgsToUpdate →
      hasInformation (onCompletedBody parse out st.index st.log).1 p = false →
      lookupPkg (onCompleted parse e out st).1.index p = some (emptyPkgInfo p)) ∧
    (∀ p, p ∈ st.pkgsToUpdate →
      hasInformation (onCompleted parse e out st).1.index p = true) := by
  refine ⟨rfl, rfl, ?_, ?_⟩
  · intro p hmem hfalse
    exact completeUpdateOnExit_fills st.pkgsToUpdate _ p hmem hfalse
  · intro p hmem
    exact completeUpdateOnExit_mem_has st.pkgsToUpdate _ p hmem

/-- Witness for C1: a cycle pending on x and y that receives empty output
gives both the empty placeholder entry, clears the snapshot and releases
the gate. -/
theorem c1_witness :
    lookupPkg ((onCompleted (fun _ => none) 0 ""
        { isUpdating := true, pkgsToUpdate := ["x", "y"], index := [], log := [] }).1.index) "x"
      = some (emptyPkgInfo "x") ∧
    lookupPkg ((onCompleted (fun _ => none) 0 ""
        { isUpdating := true, pkgsToUpdate := ["x", "y"], index := [], log := [] }).1.index) "y"
      = some (emptyPkgInfo "y") ∧
    (onCompleted (fun _ => none) 0 ""
        { isUpdating := true, pkgsToUpdate := ["x", "y"], index := [], log := [] }).1.pkgsToUpdate = [] ∧
    (onCompleted (fun _ => none) 0 ""
        { isUpdating := true, pkgsToUpdate := ["x", "y"], index := [], log := [] }).1.isUpdating = false := by
  refine ⟨?_, ?_, ?_, ?_⟩
  · exact (c1_onCompleted_finalizes (fun _ => none) 0 "" _).2.2.1 "x" (by decide) rfl
  · exact (c1_onCompleted_finalizes (fun _ => none) 0 "" _).2.2.1 "y" (by decide) rfl
  · exact (c1_onCompleted_finalizes (fun _ => none) 0 "" _).1
  · exact (c1_onCompleted_finalizes (fun _ => none) 0 "" _).2.1

/-- C2: whenever the in-progress gate is set, update() returns at once
with the whole state (pending snapshot, gate, index, log) unchanged and
no process launched. -/
theorem c2_update_noop (unindexed : List String) (st : PkgState)
    (h : st.isUpdating = true) : update unindexed st = (st, none) := by
  simp [update, h]

/-- Witness for C2: a concrete in-progress state is untouched by update. -/
theorem c2_witness :
    update ["a"] { isUpdating := true, pkgsToUpdate := ["b"], index := [], log := [] }
      = ({ isUpdating := true, pkgsToUpdate := ["b"], index := [], log := [] }, none) :=
  c2_update_noop ["a"] _ rfl

/-- C9: onCompleted never inspects its exitStatus argument: two runs with
different exit-status values but the same output and prior state produce
the same resulting state (index, pending snapshot, gate and log) and the
same exception outcome. -/
theorem c9_exit_status_independent (parse : String → Option JVal)
    (out : String) (st : PkgState) (e1 e2 : Int) :
    onCompleted parse e1 out st = onCompleted parse e2 out st := rfl

/-- The comma-separated rendering of the claim agrees with the head-plus-tail
loop of the source. -/
theorem quotedArgs_cons (p : String) (rest : List String) :
    quotedArgs (p :: rest) = squote p ++ restArgs rest := by
  induction rest generalizing p with
  | nil => simp [quotedArgs, restArgs, String.append_empty]
  | cons q qs ih =>
    rw [quotedArgs, restArgs, ih q]
    rw [String.append_assoc, String.append_assoc]

/-- C7: for every non-empty pending list, update() synthesizes exactly
the command .rs.getPackageInformation(...) with each name individually
single-quoted, comma-separated, in the query order, terminated by the
closing parenthesis and semicolon, and passes it to the process
launcher; the pending snapshot keeps the same order. -/
theorem c7_command_synthesis (pkgs : List String) (st : PkgState)
    (hgate : st.isUpdating = false) (hne : pkgs ≠ []) :
    (update pkgs st).2 = some (specCommand pkgs) ∧
    (update pkgs st).1.pkgsToUpdate = pkgs ∧
    (update pkgs st).1.isUpdating = true := by
  obtain ⟨p, rest, rfl⟩ := List.exists_cons_of_ne_nil hne
  refine ⟨?_, ?_, ?_⟩
  · simp only [update, hgate, Bool.false_eq_true, if_false, List.isEmpty_cons]
    simp only [buildCmd, specCommand, quotedArgs_cons, String.append_assoc]
  · simp [update, hgate]
  · simp [update, hgate]

/-- Witness for C7: the command synthesized for pending packages x and y. -/
theorem c7_witness :
    (update ["x", "y"] { isUpdating := false, pkgsToUpdate := [], index := [], log := [] }).2
      = some (specCommand ["x", "y"]) ∧
    specCommand ["x", "y"] = ".rs.getPackageInformation(\x27x\x27,\x27y\x27);" := by
  refine ⟨?_, by decide⟩
  exact (c7_command_synthesis ["x", "y"] _ rfl (by decide)).1

/-- C5: the asymmetric default policy of fillFormalInfo: a missing or
unreadable is_used yields isUsed false, a missing or unreadable
has_default yields hasDefaultValue true, and a missing or unreadable
missingness_handled yields missingnessHandled true. -/
theorem c5_formal_defaults (nm : String) (fields : List (String × JVal)) :
    (readIntField fields "is_used" = none →
      (decodeFormal nm fields).isUsed = false) ∧
    (readIntField fields "has_default" = none →
      (decodeFormal nm fields).hasDefaultValue = true) ∧
    (readIntField fields "missingness_handled" = none →
      (decodeFormal nm fields).missingnessHandled = true) := by
  refine ⟨?_, ?_, ?_⟩ <;> intro h <;> simp [decodeFormal, h, intFlag]

/-- Witness for C5: a formal whose field object is empty gets the
asymmetric defaults. -/
theorem c5_witness :
    (decodeFormal "arg" []).isUsed = false ∧
    (decodeFormal "arg" []).hasDefaultValue = true ∧
    (decodeFormal "arg" []).missingnessHandled = true :=
  ⟨(c5_formal_defaults "arg" []).1 rfl,
   (c5_formal_defaults "arg" []).2.1 rfl,
   (c5_formal_defaults "arg" []).2.2 rfl⟩

/-- C6: a non-empty line that fails JSON decoding makes onCompleted log a
diagnostic built from at most the first 60 characters of the line, with
an ellipsis marker exactly when the line is longer than 60 characters,
skip the line (index untouched), and continue with the remaining lines. -/
theorem c6_decode_failure (parse : String → Option JVal) (line : String)
    (idx : Index) (log : Log) (hne : line ≠ "") (hfail : parse line = none) :
    processLine parse line idx log = Except.ok (idx, log ++ [parseFailMsg line]) ∧
    (∀ rest, processLines parse (line :: rest) idx log
      = processLines parse rest idx (log ++ [parseFailMsg line])) ∧
    (line.data.length ≤ 60 → truncateLine line = line) ∧
    (60 < line.data.length →
      truncateLine line = String.mk (line.data.take 60) ++ "...") := by
  have hpl : processLine parse line idx log
      = Except.ok (idx, log ++ [parseFailMsg line]) := by
    simp [processLine, hne, hfail]
  refine ⟨hpl, ?_, ?_, ?_⟩
  · intro rest
    simp [processLines, hpl]
  · intro h
    unfold truncateLine
    rw [if_neg (Nat.not_lt.mpr h)]
  · intro h
    unfold truncateLine
    rw [if_pos h]

/-- Witness for C6: a malformed line between two lines is logged with its
text and the next lines still run. -/
theorem c6_witness :
    processLine (fun _ => none) "oops" [] [] = Except.ok ([], [parseFailMsg "oops"]) ∧
    processLines (fun _ => none) ["oops", "more"] [] []
      = processLines (fun _ => none) ["more"] [] [parseFailMsg "oops"] ∧
    truncateLine "oops" = "oops" := by
  refine ⟨?_, ?_, ?_⟩
  · exact (c6_decode_failure (fun _ => none) "oops" [] [] (by decide) rfl).1
  · exact (c6_decode_failure (fun _ => none) "oops" [] [] (by decide) rfl).2.1 ["more"]
  · exact (c6_decode_failure (fun _ => none) "oops" [] [] (by decide) rfl).2.2.1 (by decide)

/-- The unguarded object accessor fails on every non-object value. -/
theorem getObj_of_not_obj (v : JVal) (h : isObjVal v = false) :
    getObj v = Except.error () := by
  cases v <;> simp_all [isObjVal, getObj]

/-- C3 (amended): a non-empty line that parses as a JSON object but fails
the four-field structural read is logged and skipped, and the remaining
lines still run; a line whose parsed top-level value is not an object,
however, is not handled by a guarded branch: it reaches the unguarded
object access, whose failure escapes and aborts the batch, leaving the
remaining lines unprocessed. -/
theorem c3_structural_read (parse : String → Option JVal) (line : String)
    (idx : Index) (log : Log) (hne : line ≠ "") :
    (∀ o, parse line = some (JVal.jobj o) → readRecord o = Except.error () →
      processLine parse line idx log = Except.ok (idx, log ++ [readErrMsg]) ∧
      ∀ rest, processLines parse (line :: rest) idx log
        = processLines parse rest idx (log ++ [readErrMsg])) ∧
    (∀ v, parse line = some v → isObjVal v = false →
      processLine parse line idx log = Except.error (idx, log) ∧
      ∀ rest, processLines parse (line :: rest) idx log = (idx, log, true)) := by
  constructor
  · intro o hp hr
    have hpl : processLine parse line idx log = Except.ok (idx, log ++ [readErrMsg]) := by
      simp [processLine, hne, hp, getObj, hr]
    exact ⟨hpl, fun rest => by simp [processLines, hpl]⟩
  · intro v hp hv
    have hpl : processLine parse line idx log = Except.error (idx, log) := by
      simp [processLine, hne, hp, getObj_of_not_obj v hv]
    exact ⟨hpl, fun rest => by simp [processLines, hpl]⟩

/-- Witness for the amended C3: a record missing the required fields is
skipped with the batch continuing, while a parsed non-object line raises
from the unguarded access and stops the batch. -/
theorem c3_witness :
    processLine (fun s => if s = "L" then some (JVal.jobj []) else none) "L" [] []
      = Except.ok ([], [readErrMsg]) ∧
    processLine (fun s => if s = "[1]" then some (JVal.jarr []) else none) "[1]" [] []
      = Except.error ([], []) ∧
    processLines (fun s => if s = "[1]" then some (JVal.jarr []) else none)
      ["[1]", "B"] [] [] = ([], [], true) := by
  refine ⟨?_, ?_, ?_⟩
  · exact ((c3_structural_read (fun s => if s = "L" then some (JVal.jobj []) else none)
      "L" [] [] (by decide)).1 [] rfl rfl).1
  · exact ((c3_structural_read (fun s => if s = "[1]" then some (JVal.jarr []) else none)
      "[1]" [] [] (by decide)).2 (JVal.jarr []) rfl rfl).1
  · exact ((c3_structural_read (fun s => if s = "[1]" then some (JVal.jarr []) else none)
      "[1]" [] [] (by decide)).2 (JVal.jarr []) rfl rfl).2 ["B"]

/-- Counterexample to C3 as stated: with output whose first line parses
as a JSON array and whose second line is a fully valid record for
package b, the batch aborts at the first line — the escaping failure is
reported and b is never merged — although processing the valid line
alone does merge b.  The assertion of the claim that a parsed non-object line
is logged, skipped and followed by the remaining lines is false. -/
theorem c3_counterexample :
    (onCompleted
      (fun s => if s = "[1]" then some (JVal.jarr [JVal.jint 1])
        else if s = "B" then some (JVal.jobj
          [("package", JVal.jstr "b"), ("exports", JVal.jarr []),
           ("types", JVal.jarr []), ("function_info", JVal.jobj [])])
        else none)
      0 "[1]\nB"
      { isUpdating := true, pkgsToUpdate := [], index := [], log := [] }).2 = true ∧
    hasInformation ((onCompleted
      (fun s => if s = "[1]" then some (JVal.jarr [JVal.jint 1])
        else if s = "B" then some (JVal.jobj
          [("package", JVal.jstr "b"), ("exports", JVal.jarr []),
           ("types", JVal.jarr []), ("function_info", JVal.jobj [])])
        else none)
      0 "[1]\nB"
      { isUpdating := true, pkgsToUpdate := [], index := [], log := [] }).1.index) "b"
      = false ∧
    hasInformation ((onCompleted
      (fun s => if s = "[1]" then some (JVal.jarr [JVal.jint 1])
        else if s = "B" then some (JVal.jobj
          [("package", JVal.jstr "b"), ("exports", JVal.jarr []),
           ("types", JVal.jarr []), ("function_info", JVal.jobj [])])
        else none)
      0 "B"
      { isUpdating := true, pkgsToUpdate := [], index := [], log := [] }).1.index) "b"
      = true := by
  refine ⟨rfl, rfl, rfl⟩

/-- The merge the source performs for a decoded record is the plain
upsert of the freshly built information under the package name. -/
theorem addPackageInformation_mkPkgInfo (idx : Index) (r : Record) :
    addPackageInformation idx r.package (mkPkgInfo r)
      = upsertPkg idx r.package (mkPkgInfo r) := rfl

/-- Processing a fully valid line merges exactly the freshly built
information for its package, whatever the prior index was. -/
theorem processLine_valid (parse : String → Option JVal) (line : String)
    (o : List (String × JVal)) (r : Record) (idx : Index) (log : Log)
    (hne : line ≠ "") (hp : parse line = some (JVal.jobj o))
    (hr : readRecord o = Except.ok r) :
    lineOk (processLine parse line idx log) = true ∧
    lineIndex (processLine parse line idx log)
      = upsertPkg idx r.package (mkPkgInfo r) := by
  simp only [processLine, hne, if_neg (by simpa using hne), hp, getObj, hr]
  constructor
  · simp [lineOk]
  · simp [lineIndex, addPackageInformation_mkPkgInfo]

/-- C8: merging is idempotent and wholesale: processing the same valid
line in two successive cycles leaves the index exactly as after
processing it once — the upsert is last-write-wins, fully replacing the
entry, with no partial-field merge. -/
theorem c8_idempotent_merge (parse : String → Option JVal) (line : String)
    (o : List (String × JVal)) (r : Record) (idx : Index) (log log2 : Log)
    (hne : line ≠ "") (hp : parse line = some (JVal.jobj o))
    (hr : readRecord o = Except.ok r) :
    lineIndex (processLine parse line idx log)
      = upsertPkg idx r.package (mkPkgInfo r) ∧
    lineIndex (processLine parse line
        (lineIndex (processLine parse line idx log)) log2)
      = lineIndex (processLine parse line idx log) ∧
    lookupPkg (lineIndex (processLine parse line idx log)) r.package
      = some (mkPkgInfo r) := by
  have h1 := (processLine_valid parse line o r idx log hne hp hr).2
  have h2 := (processLine_valid parse line o r
    (upsertPkg idx r.package (mkPkgInfo r)) log2 hne hp hr).2
  refine ⟨h1, ?_, ?_⟩
  · rw [h1, h2, upsertPkg_upsertPkg]
  · rw [h1]
    exact lookupPkg_upsertPkg_self idx r.package (mkPkgInfo r)

/-- Witness for C8: a concrete valid line for package b merged twice
gives the same index as merged once. -/
theorem c8_witness :
    lineIndex (processLine
        (fun s => if s = "B" then some (JVal.jobj
          [("package", JVal.jstr "b"), ("exports", JVal.jarr [JVal.jstr "a"]),
           ("types", JVal.jarr [JVal.jint 1]), ("function_info", JVal.jobj [])])
          else none) "B" [] [])
      = upsertPkg [] "b" (mkPkgInfo
          { package := "b", exports := [JVal.jstr "a"]
          , types := [JVal.jint 1], functionInfo := [] }) ∧
    lineIndex (processLine
        (fun s => if s = "B" then some (JVal.jobj
          [("package", JVal.jstr "b"), ("exports", JVal.jarr [JVal.jstr "a"]),
           ("types", JVal.jarr [JVal.jint 1]), ("function_info", JVal.jobj [])])
          else none) "B"
        (lineIndex (processLine
          (fun s => if s = "B" then some (JVal.jobj
            [("package", JVal.jstr "b"), ("exports", JVal.jarr [JVal.jstr "a"]),
             ("types", JVal.jarr [JVal.jint 1]), ("function_info", JVal.jobj [])])
            else none) "B" [] [])) [])
      = lineIndex (processLine
          (fun s => if s = "B" then some (JVal.jobj
            [("package", JVal.jstr "b"), ("exports", JVal.jarr [JVal.jstr "a"]),
             ("types", JVal.jarr [JVal.jint 1]), ("function_info", JVal.jobj [])])
            else none) "B" [] []) ∧
    lookupPkg (lineIndex (processLine
        (fun s => if s = "B" then some (JVal.jobj
          [("package", JVal.jstr "b"), ("exports", JVal.jarr [JVal.jstr "a"]),
           ("types", JVal.jarr [JVal.jint 1]), ("function_info", JVal.jobj [])])
          else none) "B" [] [])) "b"
      = some (mkPkgInfo
          { package := "b", exports := [JVal.jstr "a"]
          , types := [JVal.jint 1], functionInfo := [] }) :=
  c8_idempotent_merge
    (fun s => if s = "B" then some (JVal.jobj
      [("package", JVal.jstr "b"), ("exports", JVal.jarr [JVal.jstr "a"]),
       ("types", JVal.jarr [JVal.jint 1]), ("function_info", JVal.jobj [])])
      else none) "B"
    [("package", JVal.jstr "b"), ("exports", JVal.jarr [JVal.jstr "a"]),
     ("types", JVal.jarr [JVal.jint 1]), ("function_info", JVal.jobj [])]
    { package := "b", exports := [JVal.jstr "a"]
    , types := [JVal.jint 1], functionInfo := [] }
    [] [] [] (by decide) rfl rfl

/-- fillFunctionInfo over a concatenation: when the walk over the first
part reports success, the walk continues into the second part from the
accumulated map, concatenating the emitted logs. -/
theorem fillFunctionInfo_append (pkg : String) (xs : List (String × JVal)) :
    ∀ (ys : List (String × JVal)) (m : FnMap),
    (fillFunctionInfo xs pkg m).ok = true →
    fillFunctionInfo (xs ++ ys) pkg m =
      { fnMap := (fillFunctionInfo ys pkg (fillFunctionInfo xs pkg m).fnMap).fnMap
      , msgs := (fillFunctionInfo xs pkg m).msgs
          ++ (fillFunctionInfo ys pkg (fillFunctionInfo xs pkg m).fnMap).msgs
      , ok := (fillFunctionInfo ys pkg (fillFunctionInfo xs pkg m).fnMap).ok } := by
  induction xs with
  | nil =>
    intro ys m _
    simp [fillFunctionInfo]
  | cons hd tl ih =>
    intro ys m hok
    obtain ⟨fname, v⟩ := hd
    cases v with
    | jobj fields =>
      by_cases hk : hasKey fields "formal_info" = true
      · cases hlf : lookupField fields "formal_info" with
        | none => simp [hasKey, hlf] at hk
        | some fv =>
          cases fv with
          | jobj fo =>
            have hok2 : (fillFunctionInfo tl pkg
                (upsertFn m fname (mkFnInfo fname pkg fields (fillFormalInfo fo []).1))).ok
                = true := by
              simpa [fillFunctionInfo, hk, hlf] using hok
            simp [fillFunctionInfo, hk, hlf, ih _ _ hok2, List.append_assoc]
          | jnull =>
            have hok2 : (fillFunctionInfo tl pkg m).ok = true := by
              simpa [fillFunctionInfo, hk, hlf] using hok
            simp [fillFunctionInfo, hk, hlf, ih _ _ hok2, List.append_assoc]
          | jbool b =>
            have hok2 : (fillFunctionInfo tl pkg m).ok = true := by
              simpa [fillFunctionInfo, hk, hlf] using hok
            simp [fillFunctionInfo, hk, hlf, ih _ _ hok2, List.append_assoc]
          | jint n =>
            have hok2 : (fillFunctionInfo tl pkg m).ok = true := by
              simpa [fillFunctionInfo, hk, hlf] using hok
            simp [fillFunctionInfo, hk, hlf, ih _ _ hok2, List.append_assoc]
          | jstr s =>
            have hok2 : (fillFunctionInfo tl pkg m).ok = true := by
              simpa [fillFunctionInfo, hk, hlf] using hok
            simp [fillFunctionInfo, hk, hlf, ih _ _ hok2, List.append_assoc]
          | jarr l =>
            have hok2 : (fillFunctionInfo tl pkg m).ok = true := by
              simpa [fillFunctionInfo, hk, hlf] using hok
            simp [fillFunctionInfo, hk, hlf, ih _ _ hok2, List.append_assoc]
      · simp [fillFunctionInfo, hk] at hok
    | jnull =>
      have hok2 : (fillFunctionInfo tl pkg m).ok = true := by
        simpa [fillFunctionInfo] using hok
      simp [fillFunctionInfo, ih _ _ hok2, List.append_assoc]
    | jbool b =>
      have hok2 : (fillFunctionInfo tl pkg m).ok = true := by
        simpa [fillFunctionInfo] using hok
      simp [fillFunctionInfo, ih _ _ hok2, List.append_assoc]
    | jint n =>
      have hok2 : (fillFunctionInfo tl pkg m).ok = true := by
        simpa [fillFunctionInfo] using hok
      simp [fillFunctionInfo, ih _ _ hok2, List.append_assoc]
    | jstr s =>
      have hok2 : (fillFunctionInfo tl pkg m).ok = true := by
        simpa [fillFunctionInfo] using hok
      simp [fillFunctionInfo, ih _ _ hok2, List.append_assoc]
    | jarr l =>
      have hok2 : (fillFunctionInfo tl pkg m).ok = true := by
        simpa [fillFunctionInfo] using hok
      simp [fillFunctionInfo, ih _ _ hok2, List.append_assoc]

/-- C4: a function entry whose value object has no formal_info key makes
fillFunctionInfo log a warning naming that function and return failure
at once: the functions inserted before it are kept, the offending
function and all later ones are not inserted, and the caller still
merges the exports and types of the package and the partially built functionInfo
mapping into the index for every successfully decoded record. -/
theorem c4_missing_formal_info (pkg fn : String) (fields : List (String × JVal))
    (pre post : List (String × JVal)) (m : FnMap)
    (hpre : (fillFunctionInfo pre pkg m).ok = true)
    (hmiss : hasKey fields "formal_info" = false) :
    fillFunctionInfo (pre ++ (fn, JVal.jobj fields) :: post) pkg m =
      { fnMap := (fillFunctionInfo pre pkg m).fnMap
      , msgs := (fillFunctionInfo pre pkg m).msgs
          ++ nseMsgs fields ++ [noFormalInfoMsg fn]
      , ok := false } ∧
    (∀ (parse : String → Option JVal) (line : String) (idx : Index) (log : Log)
        (o : List (String × JVal)) (r : Record),
      line ≠ "" → parse line = some (JVal.jobj o) → readRecord o = Except.ok r →
      lineOk (processLine parse line idx log) = true ∧
      lineIndex (processLine parse line idx log)
        = upsertPkg idx r.package (mkPkgInfo r)) := by
  constructor
  · rw [fillFunctionInfo_append pkg pre ((fn, JVal.jobj fields) :: post) m hpre]
    have hstep : fillFunctionInfo ((fn, JVal.jobj fields) :: post) pkg
        (fillFunctionInfo pre pkg m).fnMap =
        { fnMap := (fillFunctionInfo pre pkg m).fnMap
        , msgs := nseMsgs fields ++ [noFormalInfoMsg fn]
        , ok := false } := by
      simp [fillFunctionInfo, hmiss]
    rw [hstep]
    simp [List.append_assoc]
  · intro parse line idx log o r hne hp hr
    exact processLine_valid parse line o r idx log hne hp hr

/-- Witness for C4: with f1 before it and f3 after it, the entry f2
without formal_info keeps f1, drops f2 and f3, reports failure, and the
record carrying this function_info object still merges for its package
with the partial map. -/
theorem c4_witness :
    fillFunctionInfo
        ([("f1", JVal.jobj [("performs_nse", JVal.jint 1), ("formal_info", JVal.jobj [])])]
          ++ ("f2", JVal.jobj [("performs_nse", JVal.jint 0)])
          :: [("f3", JVal.jobj [("formal_info", JVal.jobj [])])]) "q" [] =
      { fnMap := (fillFunctionInfo
          [("f1", JVal.jobj [("performs_nse", JVal.jint 1), ("formal_info", JVal.jobj [])])]
          "q" []).fnMap
      , msgs := (fillFunctionInfo
          [("f1", JVal.jobj [("performs_nse", JVal.jint 1), ("formal_info", JVal.jobj [])])]
          "q" []).msgs
          ++ nseMsgs [("performs_nse", JVal.jint 0)] ++ [noFormalInfoMsg "f2"]
      , ok := false } ∧
    lineOk (processLine
        (fun s => if s = "Q" then some (JVal.jobj
          [("package", JVal.jstr "q"), ("exports", JVal.jarr [JVal.jstr "e"]),
           ("types", JVal.jarr [JVal.jint 2]),
           ("function_info", JVal.jobj
             [("f1", JVal.jobj [("performs_nse", JVal.jint 1), ("formal_info", JVal.jobj [])]),
              ("f2", JVal.jobj [("performs_nse", JVal.jint 0)]),
              ("f3", JVal.jobj [("formal_info", JVal.jobj [])])])])
          else none) "Q" [] []) = true ∧
    lineIndex (processLine
        (fun s => if s = "Q" then some (JVal.jobj
          [("package", JVal.jstr "q"), ("exports", JVal.jarr [JVal.jstr "e"]),
           ("types", JVal.jarr [JVal.jint 2]),
           ("function_info", JVal.jobj
             [("f1", JVal.jobj [("performs_nse", JVal.jint 1), ("formal_info", JVal.jobj [])]),
              ("f2", JVal.jobj [("performs_nse", JVal.jint 0)]),
              ("f3", JVal.jobj [("formal_info", JVal.jobj [])])])])
          else none) "Q" [] [])
      = upsertPkg [] "q" (mkPkgInfo
          { package := "q", exports := [JVal.jstr "e"], types := [JVal.jint 2]
          , functionInfo :=
             [("f1", JVal.jobj [("performs_nse", JVal.jint 1), ("formal_info", JVal.jobj [])]),
              ("f2", JVal.jobj [("performs_nse", JVal.jint 0)]),
              ("f3", JVal.jobj [("formal_info", JVal.jobj [])])] }) := by
  refine ⟨?_, ?_, ?_⟩
  · exact (c4_missing_formal_info "q" "f2" [("performs_nse", JVal.jint 0)]
      [("f1", JVal.jobj [("performs_nse", JVal.jint 1), ("formal_info", JVal.jobj [])])]
      [("f3", JVal.jobj [("formal_info", JVal.jobj [])])] [] rfl rfl).1
  · exact ((c4_missing_formal_info "q" "f2" [("performs_nse", JVal.jint 0)]
      [("f1", JVal.jobj [("performs_nse", JVal.jint 1), ("formal_info", JVal.jobj [])])]
      [("f3", JVal.jobj [("formal_info", JVal.jobj [])])] [] rfl rfl).2
      (fun s => if s = "Q" then some (JVal.jobj
        [("package", JVal.jstr "q"), ("exports", JVal.jarr [JVal.jstr "e"]),
         ("types", JVal.jarr [JVal.jint 2]),
         ("function_info", JVal.jobj
           [("f1", JVal.jobj [("performs_nse", JVal.jint 1), ("formal_info", JVal.jobj [])]),
            ("f2", JVal.jobj [("performs_nse", JVal.jint 0)]),
            ("f3", JVal.jobj [("formal_info", JVal.jobj [])])])])
        else none) "Q" [] []
      [("package", JVal.jstr "q"), ("exports", JVal.jarr [JVal.jstr "e"]),
       ("types", JVal.jarr [JVal.jint 2]),
       ("function_info", JVal.jobj
         [("f1", JVal.jobj [("performs_nse", JVal.jint 1), ("formal_info", JVal.jobj [])]),
          ("f2", JVal.jobj [("performs_nse", JVal.jint 0)]),
          ("f3", JVal.jobj [("formal_info", JVal.jobj [])])])]
      { package := "q", exports := [JVal.jstr "e"], types := [JVal.jint 2]
      , functionInfo :=
         [("f1", JVal.jobj [("performs_nse", JVal.jint 1), ("formal_info", JVal.jobj [])]),
          ("f2", JVal.jobj [("performs_nse", JVal.jint 0)]),
          ("f3", JVal.jobj [("formal_info", JVal.jobj [])])] }
      (by decide) rfl rfl).1
  · exact ((c4_missing_formal_info "q" "f2" [("performs_nse", JVal.jint 0)]
      [("f1", JVal.jobj [("performs_nse", JVal.jint 1), ("formal_info", JVal.jobj [])])]
      [("f3", JVal.jobj [("formal_info", JVal.jobj [])])] [] rfl rfl).2
      (fun s => if s = "Q" then some (JVal.jobj
        [("package", JVal.jstr "q"), ("exports", JVal.jarr [JVal.jstr "e"]),
         ("types", JVal.jarr [JVal.jint 2]),
         ("function_info", JVal.jobj
           [("f1", JVal.jobj [("performs_nse", JVal.jint 1), ("formal_info", JVal.jobj [])]),
            ("f2", JVal.jobj [("performs_nse", JVal.jint 0)]),
            ("f3", JVal.jobj [("formal_info", JVal.jobj [])])])])
        else none) "Q" [] []
      [("package", JVal.jstr "q"), ("exports", JVal.jarr [JVal.jstr "e"]),
       ("types", JVal.jarr [JVal.jint 2]),
       ("function_info", JVal.jobj
         [("f1", JVal.jobj [("performs_nse", JVal.jint 1), ("formal_info", JVal.jobj [])]),
          ("f2", JVal.jobj [("performs_nse", JVal.jint 0)]),
          ("f3", JVal.jobj [("formal_info", JVal.jobj [])])])]
      { package := "q", exports := [JVal.jstr "e"], types := [JVal.jint 2]
      , functionInfo :=
         [("f1", JVal.jobj [("performs_nse", JVal.jint 1), ("formal_info", JVal.jobj [])]),
          ("f2", JVal.jobj [("performs_nse", JVal.jint 0)]),
          ("f3", JVal.jobj [("formal_info", JVal.jobj [])])] }
      (by decide) rfl rfl).2

/-- fillFormalInfo on a list whose first non-object value sits after a
prefix of object-valued formals: the prefix is decoded, the offending
formal and everything after it are dropped, and the type mismatch is
logged last. -/
theorem fillFormalInfo_drop (nm : String) (v : JVal) (post : List (String × JVal))
    (hv : isObjVal v = false) :
    ∀ (pre : List (String × JVal)), (∀ kv ∈ pre, isObjVal kv.2 = true) →
    ∀ acc, fillFormalInfo (pre ++ (nm, v) :: post) acc =
      ((fillFormalInfo pre acc).1,
       (fillFormalInfo pre acc).2 ++ [incompatibleTypesMsg]) := by
  intro pre
  induction pre with
  | nil =>
    intro _ acc
    cases v with
    | jobj fields => simp [isObjVal] at hv
    | jnull => simp [fillFormalInfo]
    | jbool b => simp [fillFormalInfo]
    | jint n => simp [fillFormalInfo]
    | jstr s => simp [fillFormalInfo]
    | jarr l => simp [fillFormalInfo]
  | cons hd tl ih =>
    intro hall acc
    obtain ⟨knm, kv⟩ := hd
    have hkv : isObjVal kv = true := hall (knm, kv) (List.mem_cons_self _ _)
    cases kv with
    | jobj fields =>
      have htl : ∀ kv2 ∈ tl, isObjVal kv2.2 = true :=
        fun kv2 h => hall kv2 (List.mem_cons_of_mem _ h)
      simp [fillFormalInfo, ih htl, List.append_assoc]
    | jnull => simp [isObjVal] at hkv
    | jbool b => simp [isObjVal] at hkv
    | jint n => simp [isObjVal] at hkv
    | jstr s => simp [isObjVal] at hkv
    | jarr l => simp [isObjVal] at hkv

/-- C10: a formal whose value is not an object makes fillFormalInfo log
the type mismatch and return at once, dropping it and every later formal
in decode order; the enclosing function is nevertheless inserted into
the output mapping with only the formals decoded before that point, and
fillFunctionInfo still reports success for the package. -/
theorem c10_formal_type_mismatch (nm : String) (v : JVal) (pkg : String)
    (pre post : List (String × JVal))
    (hall : ∀ kv ∈ pre, isObjVal kv.2 = true)
    (hv : isObjVal v = false) :
    (∀ acc, fillFormalInfo (pre ++ (nm, v) :: post) acc =
      ((fillFormalInfo pre acc).1,
       (fillFormalInfo pre acc).2 ++ [incompatibleTypesMsg])) ∧
    (∀ (f : String) (fields : List (String × JVal)) (m : FnMap),
      lookupField fields "formal_info" = some (JVal.jobj (pre ++ (nm, v) :: post)) →
      fillFunctionInfo [(f, JVal.jobj fields)] pkg m =
        { fnMap := upsertFn m f (mkFnInfo f pkg fields (fillFormalInfo pre []).1)
        , msgs := nseMsgs fields
            ++ ((fillFormalInfo pre []).2 ++ [incompatibleTypesMsg])
        , ok := true }) := by
  have hdrop := fillFormalInfo_drop nm v post hv pre hall
  refine ⟨hdrop, ?_⟩
  intro f fields m hlf
  have hk : hasKey fields "formal_info" = true := by simp [hasKey, hlf]
  simp [fillFunctionInfo, hk, hlf, hdrop []]

/-- Witness for C10: a formal b with integer value between object-valued
formals a and c: a is decoded, b and c are dropped, the function is
inserted with just a, and the walk reports success. -/
theorem c10_witness :
    fillFormalInfo
        ([("a", JVal.jobj [("is_used", JVal.jint 1)])]
          ++ ("b", JVal.jint 7) :: [("c", JVal.jobj [])]) [] =
      ((fillFormalInfo [("a", JVal.jobj [("is_used", JVal.jint 1)])] []).1,
       (fillFormalInfo [("a", JVal.jobj [("is_used", JVal.jint 1)])] []).2
         ++ [incompatibleTypesMsg]) ∧
    fillFunctionInfo
        [("fn0", JVal.jobj
          [("formal_info", JVal.jobj
            ([("a", JVal.jobj [("is_used", JVal.jint 1)])]
              ++ ("b", JVal.jint 7) :: [("c", JVal.jobj [])]))])] "p" [] =
      { fnMap := upsertFn [] "fn0" (mkFnInfo "fn0" "p"
          [("formal_info", JVal.jobj
            ([("a", JVal.jobj [("is_used", JVal.jint 1)])]
              ++ ("b", JVal.jint 7) :: [("c", JVal.jobj [])]))]
          (fillFormalInfo [("a", JVal.jobj [("is_used", JVal.jint 1)])] []).1)
      , msgs := nseMsgs
          [("formal_info", JVal.jobj
            ([("a", JVal.jobj [("is_used", JVal.jint 1)])]
              ++ ("b", JVal.jint 7) :: [("c", JVal.jobj [])]))]
          ++ ((fillFormalInfo [("a", JVal.jobj [("is_used", JVal.jint 1)])] []).2
            ++ [incompatibleTypesMsg])
      , ok := true } := by
  refine ⟨?_, ?_⟩
  · exact (c10_formal_type_mismatch "b" (JVal.jint 7) "p"
      [("a", JVal.jobj [("is_used", JVal.jint 1)])] [("c", JVal.jobj [])]
      (by decide) rfl).1 []
  · exact (c10_formal_type_mismatch "b" (JVal.jint 7) "p"
      [("a", JVal.jobj [("is_used", JVal.jint 1)])] [("c", JVal.jobj [])]
      (by decide) rfl).2 "fn0"
      [("formal_info", JVal.jobj
        ([("a", JVal.jobj [("is_used", JVal.jint 1)])]
          ++ ("b", JVal.jint 7) :: [("c", JVal.jobj [])]))] [] rfl
